import Mathlib

/-!
Verification of `src/checkimports.py`, a diagnostic script that

  1. imports `agent_framework.observability`,
  2. prints a header line and `dir(obs)`,
  3. prints a blank line and a second banner line,
  4. walks every submodule under `agent_framework` with
     `pkgutil.walk_packages(agent_framework.__path__, agent_framework.__name__ + ".")`
     and prints each discovered module name.

The script is straight-line Python over an installed-package state, so we
embed it as a pure function from a `World` (the installed state the script
inspects) to a `RunResult` (the observable behaviour: stdout lines, an
optional stderr diagnostic, and the exit status).
-/

/-- A loaded Python module object, reduced to what the script observes:
the names in its namespace dictionary (given as a list). -/
structure PyModule where
  attrs : List String
deriving Repr, DecidableEq

/-- Outcome of CPython importing one package during
`pkgutil.walk_packages`: the import succeeds, raises `ImportError`, or
raises some other exception (carrying its message). -/
inductive LoadOutcome where
  | ok
  | importError
  | otherError (msg : String)
deriving Repr, DecidableEq

/-- The directory tree `walk_packages` traverses under
`agent_framework.__path__`: a plain module, or a package with the outcome
of its own import and its child entries. Names are the simple (undotted)
names that `pkgutil.iter_modules` yields for the entry. -/
inductive PkgTree where
  | mod (name : String)
  | pkg (name : String) (load : LoadOutcome) (children : List PkgTree)
deriving Repr

/-- The installed state the script runs against:
`obsLoad` is the result of line 1, `import agent_framework.observability`
(either the loaded submodule object or the exception message propagated to
the process boundary); `rootTree` is the directory contents under
`agent_framework.__path__` that the walk of lines 8-9 traverses. -/
structure World where
  obsLoad : Except String PyModule
  rootTree : List PkgTree

/-- CPython string comparison on the underlying code-point sequences:
lexicographic comparison of the Unicode code points. -/
def strLeBAux : List Char → List Char → Bool
  | [], _ => true
  | _ :: _, [] => false
  | a :: as, b :: bs =>
    if a.toNat < b.toNat then true
    else if b.toNat < a.toNat then false
    else strLeBAux as bs

/-- CPython `a <= b` on strings (code-point lexicographic order). -/
def strLeB (a b : String) : Bool := strLeBAux a.data b.data

/-- Insert a string into a list kept in ascending `strLeB` order. -/
def insertLe (x : String) : List String → List String
  | [] => [x]
  | y :: ys => if strLeB x y then x :: y :: ys else y :: insertLe x ys

/-- Sort a list of strings ascending by `strLeB` (the order CPython's
`sorted` produces for strings; the result is the same for any correct
sort). -/
def sortLe : List String → List String
  | [] => []
  | x :: xs => insertLe x (sortLe xs)

/-- CPython `dir()` on a module: `sorted(set(names))` — the distinct names
of the module namespace in ascending code-point order. -/
def pyDir (m : PyModule) : List String :=
  sortLe m.attrs.dedup

/-- CPython `repr` of a string (default single-quoted form). -/
def pyReprStr (s : String) : String := "\x27" ++ s ++ "\x27"

/-- CPython `repr` of a list of strings, which is what
`print(dir(obs))` writes on line 3. -/
def pyReprStrList (xs : List String) : String :=
  "[" ++ String.intercalate ", " (xs.map pyReprStr) ++ "]"

mutual

/-- One entry of `pkgutil.walk_packages` (CPython `pkgutil.py`, with
`onerror=None` as in the script): the entry name, prefixed, is yielded
first; then, for a package, its import is attempted — on success the walk
recurses into the children with the extended dotted prefix, an
`ImportError` is silently swallowed (no recursion), and any other
exception propagates out of the generator.  Returns the lines printed by
the loop body and the optionally propagating exception message. -/
def walkOne (pre : String) : PkgTree → List String × Option String
  | .mod n => ([pre ++ n], none)
  | .pkg n load children =>
    match load with
    | .ok =>
      let r := walkList (pre ++ n ++ ".") children
      ((pre ++ n) :: r.1, r.2)
    | .importError => ([pre ++ n], none)
    | .otherError msg => ([pre ++ n], some msg)

/-- Sequencing of `walkOne` over the entries of one directory level: an
exception propagating from an entry aborts the rest of the iteration. -/
def walkList (pre : String) : List PkgTree → List String × Option String
  | [] => ([], none)
  | t :: rest =>
    let r := walkOne pre t
    match r.2 with
    | some m => (r.1, some m)
    | none =>
      let r2 := walkList pre rest
      (r.1 ++ r2.1, r2.2)

end

/-- The literal header printed on line 2 of the script. -/
def header1 : String := "=== Available in agent_framework.observability ==="

/-- The literal banner printed on line 5 of the script (after the leading
newline of the `"\n=== ... ==="` argument, which contributes a blank
stdout line of its own). -/
def banner : String := "=== All submodules in agent_framework ==="

/-- The root package name, `agent_framework.__name__`. -/
def rootName : String := "agent_framework"

/-- The observable behaviour of one run: stdout as a list of lines, an
optional unhandled-exception diagnostic on stderr, and whether the process
exit status is zero. -/
structure RunResult where
  stdout : List String
  stderrDiag : Option String
  exitZero : Bool
deriving Repr, DecidableEq

/-- The whole script `src/checkimports.py`, line by line: if the line-1
module load fails the exception propagates before any print (empty stdout,
diagnostic on stderr, non-zero exit); otherwise the header, `dir(obs)`,
the blank line and banner from `print("\n=== ... ===")`, then the walk
loop, whose propagating exception (if any) makes the exit status
non-zero. -/
def checkimports (w : World) : RunResult :=
  match w.obsLoad with
  | .error msg => { stdout := [], stderrDiag := some msg, exitZero := false }
  | .ok obs =>
    let r := walkList (rootName ++ ".") w.rootTree
    { stdout := header1 :: pyReprStrList (pyDir obs) :: "" :: banner :: r.1
      stderrDiag := r.2
      exitZero := r.2.isNone }

/-- A side effect a process could perform besides writing stdout/stderr.
The script performs none: its statements are imports and `print` calls. -/
inductive SideEffect where
  | fileWrite (path content : String)
  | networkSend (dest payload : String)
  | fileRead (path : String)
deriving Repr, DecidableEq

/-- The full input surface a process invocation could offer. The script
consumes none of it except the installed-package state. -/
structure ProcessInput where
  argv : List String
  envVars : List (String × String)
  stdinData : String
  world : World

/-- Running the script as a process: the behaviour is `checkimports` of
the installed state alone, and the side-effect trace is empty (the source
contains only imports and prints). -/
def runScript (p : ProcessInput) : RunResult × List SideEffect :=
  (checkimports p.world, [])

mutual

/-- Whether every package import attempted while walking this entry
succeeds or raises only `ImportError` (children below a failed import are
never visited, so they are not constrained). -/
def treeBenign : PkgTree → Bool
  | .mod _ => true
  | .pkg _ load children =>
    match load with
    | .ok => listBenign children
    | .importError => true
    | .otherError _ => false

/-- `treeBenign` over one directory level. -/
def listBenign : List PkgTree → Bool
  | [] => true
  | t :: rest => treeBenign t && listBenign rest

end

theorem walkList_cons (pre : String) (t : PkgTree) (rest : List PkgTree) :
    walkList pre (t :: rest) =
      match (walkOne pre t).2 with
      | some m => ((walkOne pre t).1, some m)
      | none => ((walkOne pre t).1 ++ (walkList pre rest).1, (walkList pre rest).2) := by
  rw [walkList]

mutual

theorem walkOne_lines_shape (pre : String) (t : PkgTree) :
    ∀ l ∈ (walkOne pre t).1, ∃ s, l = pre ++ s := by
  cases t with
  | mod n =>
    intro l hl
    simp only [walkOne, List.mem_singleton] at hl
    exact ⟨n, hl⟩
  | pkg n load children =>
    cases load with
    | ok =>
      intro l hl
      simp only [walkOne, List.mem_cons] at hl
      rcases hl with h | h
      · exact ⟨n, h⟩
      · rcases walkList_lines_shape (pre ++ n ++ ".") children l h with ⟨s, hs⟩
        exact ⟨n ++ "." ++ s, by rw [hs]; simp [String.append_assoc]⟩
    | importError =>
      intro l hl
      simp only [walkOne, List.mem_singleton] at hl
      exact ⟨n, hl⟩
    | otherError msg =>
      intro l hl
      simp only [walkOne, List.mem_singleton] at hl
      exact ⟨n, hl⟩

theorem walkList_lines_shape (pre : String) (ts : List PkgTree) :
    ∀ l ∈ (walkList pre ts).1, ∃ s, l = pre ++ s := by
  cases ts with
  | nil =>
    intro l hl
    simp [walkList] at hl
  | cons t rest =>
    intro l hl
    rw [walkList_cons] at hl
    rcases h2 : (walkOne pre t).2 with _ | m
    · rw [h2] at hl
      simp only [List.mem_append] at hl
      rcases hl with h | h
      · exact walkOne_lines_shape pre t l h
      · exact walkList_lines_shape pre rest l h
    · rw [h2] at hl
      exact walkOne_lines_shape pre t l hl

end

mutual

theorem walkOne_err_iff (pre : String) (t : PkgTree) :
    (walkOne pre t).2 = none ↔ treeBenign t = true := by
  cases t with
  | mod n => simp [walkOne, treeBenign]
  | pkg n load children =>
    cases load with
    | ok =>
      simpa [walkOne, treeBenign] using walkList_err_iff (pre ++ n ++ ".") children
    | importError => simp [walkOne, treeBenign]
    | otherError msg => simp [walkOne, treeBenign]

theorem walkList_err_iff (pre : String) (ts : List PkgTree) :
    (walkList pre ts).2 = none ↔ listBenign ts = true := by
  cases ts with
  | nil => simp [walkList, listBenign]
  | cons t rest =>
    rw [walkList_cons]
    rcases h2 : (walkOne pre t).2 with _ | m
    · have ht : treeBenign t = true := (walkOne_err_iff pre t).1 h2
      simp only [listBenign, ht, Bool.true_and]
      exact walkList_err_iff pre rest
    · have ht : treeBenign t = false := by
        cases hb : treeBenign t
        · rfl
        · have := (walkOne_err_iff pre t).2 hb
          rw [h2] at this
          cases this
      simp [listBenign, ht]

end

theorem append_ne_of_head {a b : String} (c d : Char) (la lb : List Char)
    (ha : a.data = c :: la) (hb : b.data = d :: lb) (hcd : c ≠ d) :
    ∀ s : String, a ++ s ≠ b := by
  intro s h
  have hd : (a ++ s).data = b.data := by rw [h]
  rw [String.data_append, ha, hb, List.cons_append] at hd
  exact hcd (by injection hd)

theorem root_line_ne_banner (s : String) : rootName ++ "." ++ s ≠ banner := by
  exact append_ne_of_head 'a' '='
    "gent_framework.".data "== All submodules in agent_framework ===".data
    rfl rfl (by decide) s

theorem pyReprStrList_ne_banner (xs : List String) : pyReprStrList xs ≠ banner := by
  rw [pyReprStrList, String.append_assoc]
  exact append_ne_of_head '[' '='
    [] "== All submodules in agent_framework ===".data
    rfl rfl (by decide) _

theorem checkimports_ok (w : World) (obs : PyModule) (h : w.obsLoad = .ok obs) :
    checkimports w =
      { stdout := header1 :: pyReprStrList (pyDir obs) :: "" :: banner ::
          (walkList (rootName ++ ".") w.rootTree).1
        stderrDiag := (walkList (rootName ++ ".") w.rootTree).2
        exitZero := ((walkList (rootName ++ ".") w.rootTree).2).isNone } := by
  rw [checkimports, h]

theorem strLeBAux_cons_iff (a b : Char) (as bs : List Char) :
    strLeBAux (a :: as) (b :: bs) = true ↔
      a.toNat < b.toNat ∨ (a.toNat = b.toNat ∧ strLeBAux as bs = true) := by
  simp only [strLeBAux]
  by_cases h1 : a.toNat < b.toNat
  · simp [h1]
  · by_cases h2 : b.toNat < a.toNat
    · rw [if_neg h1, if_pos h2]
      constructor
      · intro h
        cases h
      · rintro (h | ⟨he, _⟩)
        · exact absurd h h1
        · omega
    · have he : a.toNat = b.toNat := by omega
      rw [if_neg h1, if_neg h2]
      constructor
      · intro h
        exact .inr ⟨he, h⟩
      · rintro (h | ⟨_, h⟩)
        · exact absurd h h1
        · exact h

theorem strLeBAux_total : ∀ as bs : List Char,
    strLeBAux as bs = true ∨ strLeBAux bs as = true
  | [], _ => .inl rfl
  | _ :: _, [] => .inr rfl
  | a :: as, b :: bs => by
    rw [strLeBAux_cons_iff, strLeBAux_cons_iff]
    rcases Nat.lt_trichotomy a.toNat b.toNat with h | h | h
    · exact .inl (.inl h)
    · rcases strLeBAux_total as bs with ih | ih
      · exact .inl (.inr ⟨h, ih⟩)
      · exact .inr (.inr ⟨h.symm, ih⟩)
    · exact .inr (.inl h)

theorem strLeBAux_trans : ∀ as bs cs : List Char,
    strLeBAux as bs = true → strLeBAux bs cs = true → strLeBAux as cs = true
  | [], _, _, _, _ => rfl
  | _ :: _, [], _, h1, _ => by simp [strLeBAux] at h1
  | _ :: _, _ :: _, [], _, h2 => by simp [strLeBAux] at h2
  | a :: as, b :: bs, c :: cs, h1, h2 => by
    rw [strLeBAux_cons_iff] at h1 h2 ⊢
    rcases h1 with h1 | ⟨e1, hx⟩
    · rcases h2 with h2 | ⟨e2, _⟩
      · exact .inl (by omega)
      · exact .inl (by omega)
    · rcases h2 with h2 | ⟨e2, hy⟩
      · exact .inl (by omega)
      · exact .inr ⟨by omega, strLeBAux_trans as bs cs hx hy⟩

theorem strLeB_total (a b : String) : strLeB a b = true ∨ strLeB b a = true :=
  strLeBAux_total a.data b.data

theorem strLeB_trans (a b c : String) (h1 : strLeB a b = true)
    (h2 : strLeB b c = true) : strLeB a c = true :=
  strLeBAux_trans a.data b.data c.data h1 h2

theorem mem_insertLe (x : String) (l : List String) (y : String) :
    y ∈ insertLe x l ↔ y = x ∨ y ∈ l := by
  induction l with
  | nil => simp [insertLe]
  | cons z zs ih =>
    by_cases h : strLeB x z = true
    · simp [insertLe, h]
    · simp only [insertLe, if_neg h, List.mem_cons, ih]
      tauto

theorem mem_sortLe (l : List String) (y : String) : y ∈ sortLe l ↔ y ∈ l := by
  induction l with
  | nil => simp [sortLe]
  | cons z zs ih => simp [sortLe, mem_insertLe, ih]

theorem mem_pyDir (m : PyModule) (n : String) : n ∈ pyDir m ↔ n ∈ m.attrs := by
  rw [pyDir, mem_sortLe, List.mem_dedup]

theorem pairwise_insertLe (x : String) (l : List String)
    (hl : List.Pairwise (fun a b => strLeB a b = true) l) :
    List.Pairwise (fun a b => strLeB a b = true) (insertLe x l) := by
  induction l with
  | nil => simp [insertLe]
  | cons z zs ih =>
    rcases List.pairwise_cons.1 hl with ⟨hz, hzs⟩
    by_cases h : strLeB x z = true
    · rw [insertLe, if_pos h]
      refine List.pairwise_cons.2 ⟨?_, hl⟩
      intro y hy
      rcases List.mem_cons.1 hy with rfl | hy
      · exact h
      · exact strLeB_trans x z y h (hz y hy)
    · rw [insertLe, if_neg h]
      refine List.pairwise_cons.2 ⟨?_, ih hzs⟩
      intro y hy
      rcases (mem_insertLe x zs y).1 hy with he | hy
      · rw [he]
        rcases strLeB_total x z with ht | ht
        · exact absurd ht h
        · exact ht
      · exact hz y hy

theorem pairwise_sortLe (l : List String) :
    List.Pairwise (fun a b => strLeB a b = true) (sortLe l) := by
  induction l with
  | nil => simp [sortLe]
  | cons z zs ih => exact pairwise_insertLe z (sortLe zs) ih

theorem char_lt_iff (a b : Char) : a < b ↔ a.toNat < b.toNat := Iff.rfl

theorem char_le_iff (a b : Char) : a ≤ b ↔ a.toNat ≤ b.toNat := Iff.rfl

theorem char_toNat_inj {a b : Char} (h : a.toNat = b.toNat) : a = b :=
  le_antisymm ((char_le_iff a b).2 (le_of_eq h)) ((char_le_iff b a).2 (le_of_eq h.symm))

theorem strLeBAux_iff_not_lt : ∀ as bs : List Char,
    strLeBAux as bs = true ↔ ¬ bs < as
  | [], [] => iff_of_true rfl (fun h => nomatch h)
  | [], b :: bs => iff_of_true rfl (fun h => nomatch h)
  | a :: as, [] =>
    iff_of_false (by simp [strLeBAux]) (fun hn => hn (List.nil_lt_cons a as))
  | a :: as, b :: bs => by
    rw [strLeBAux_cons_iff]
    constructor
    · rintro (hab | ⟨he, hx⟩) hlt
      · cases hlt with
        | cons h3 => exact absurd hab (by omega)
        | rel hba => rw [char_lt_iff] at hba; omega
      · cases hlt with
        | cons h3 => exact (strLeBAux_iff_not_lt as bs).1 hx h3
        | rel hba => rw [char_lt_iff] at hba; omega
    · intro h
      rcases Nat.lt_trichotomy a.toNat b.toNat with hab | hab | hab
      · exact .inl hab
      · refine .inr ⟨hab, (strLeBAux_iff_not_lt as bs).2 ?_⟩
        intro hba
        have he : b = a := char_toNat_inj hab.symm
        subst he
        exact h (List.Lex.cons hba)
      · exact absurd (List.Lex.rel ((char_lt_iff b a).2 hab)) h

/-- `strLeB` coincides with the lexicographic order on strings. -/
theorem strLeB_iff_le (a b : String) : strLeB a b = true ↔ a ≤ b := by
  rw [String.le_iff_toList_le]
  exact (strLeBAux_iff_not_lt a.data b.data).trans not_lt

/-- The concrete observability submodule used in witness runs. -/
def obsMod : PyModule :=
  { attrs := ["setup_observability", "OtelAttr", "__name__"] }

/-- A concrete installed state where line 1's import fails. -/
def wFail : World :=
  { obsLoad := .error "ModuleNotFoundError: No module named agent_framework"
    rootTree := [] }

/-- A concrete installed state where the import succeeds: the package tree
holds a plain module, a subpackage that imports fine, a subpackage whose
own import raises `ImportError`, and a trailing plain module. -/
def wOk : World :=
  { obsLoad := .ok obsMod
    rootTree :=
      [ .mod "a2a"
      , .pkg "observability" .ok [.mod "otel"]
      , .pkg "azure" .importError [.mod "hidden"]
      , .mod "workflows" ] }

/-- Invocation of the script with empty argv, env, and stdin. -/
def pIn1 : ProcessInput :=
  { argv := [], envVars := [], stdinData := "", world := wOk }

/-- Invocation of the script with flags, env vars, and stdin present. -/
def pIn2 : ProcessInput :=
  { argv := ["--verbose"], envVars := [("DEBUG", "1")], stdinData := "ignored"
    world := wOk }

/-- C1: if the import of the target package or its observability submodule
fails, the process terminates with non-zero exit status and a diagnostic
on stderr, and writes no stdout text at all (the failure occurs before any
print). -/
theorem c1_import_failure_no_output (w : World) (msg : String)
    (h : w.obsLoad = .error msg) :
    (checkimports w).stdout = [] ∧ (checkimports w).exitZero = false ∧
    (checkimports w).stderrDiag = some msg := by
  rw [checkimports, h]
  exact ⟨rfl, rfl, rfl⟩

theorem c1_witness :
    (checkimports wFail).stdout = [] ∧ (checkimports wFail).exitZero = false ∧
    (checkimports wFail).stderrDiag =
      some "ModuleNotFoundError: No module named agent_framework" :=
  c1_import_failure_no_output wFail
    "ModuleNotFoundError: No module named agent_framework" rfl

/-- C2: every name in the printed attribute-collection line is actually
present on the loaded submodule's namespace — no fabricated names, so
attribute access on each printed name resolves. -/
theorem c2_printed_names_resolve (w : World) (obs : PyModule)
    (h : w.obsLoad = .ok obs) :
    (checkimports w).stdout[1]? = some (pyReprStrList (pyDir obs)) ∧
    ∀ n ∈ pyDir obs, n ∈ obs.attrs := by
  rw [checkimports_ok w obs h]
  exact ⟨rfl, fun n hn => (mem_pyDir obs n).1 hn⟩

theorem c2_witness :
    (checkimports wOk).stdout[1]? = some (pyReprStrList (pyDir obsMod)) ∧
    "OtelAttr" ∈ obsMod.attrs :=
  ⟨(c2_printed_names_resolve wOk obsMod rfl).1,
   (c2_printed_names_resolve wOk obsMod rfl).2 "OtelAttr" (by decide)⟩

/-- C3: every module name printed in the walk section begins with the root
package name followed by a dot — each walk line is "agent_framework."
followed by the rest of the dotted path. -/
theorem c3_walk_lines_rooted (w : World) (obs : PyModule)
    (h : w.obsLoad = .ok obs) :
    ∀ l ∈ (checkimports w).stdout.drop 4, ∃ s, l = rootName ++ "." ++ s := by
  rw [checkimports_ok w obs h]
  intro l hl
  simp only [List.drop_succ_cons, List.drop_zero] at hl
  exact walkList_lines_shape (rootName ++ ".") w.rootTree l hl

theorem c3_witness :
    "agent_framework.a2a" ∈ (checkimports wOk).stdout.drop 4 ∧
    ∃ s, "agent_framework.a2a" = rootName ++ "." ++ s :=
  ⟨by decide, c3_walk_lines_rooted wOk obsMod rfl "agent_framework.a2a" (by decide)⟩

/-- C4: the attribute listing prints, as one collection, exactly the names
attached to the loaded submodule's namespace: membership in the printed
collection coincides with membership in the namespace. -/
theorem c4_attr_collection_exact (w : World) (obs : PyModule)
    (h : w.obsLoad = .ok obs) :
    (checkimports w).stdout[1]? = some (pyReprStrList (pyDir obs)) ∧
    ∀ n, n ∈ pyDir obs ↔ n ∈ obs.attrs := by
  rw [checkimports_ok w obs h]
  exact ⟨rfl, mem_pyDir obs⟩

theorem c4_witness :
    (checkimports wOk).stdout[1]? = some (pyReprStrList (pyDir obsMod)) ∧
    ("__name__" ∈ pyDir obsMod ↔ "__name__" ∈ obsMod.attrs) :=
  ⟨(c4_attr_collection_exact wOk obsMod rfl).1,
   (c4_attr_collection_exact wOk obsMod rfl).2 "__name__"⟩

/-- C5: on a successful load, the first stdout line is exactly the fixed
submodule-contents header, and it precedes the attribute-collection line
(the second stdout line). -/
theorem c5_first_line_is_header (w : World) (obs : PyModule)
    (h : w.obsLoad = .ok obs) :
    (checkimports w).stdout[0]? = some header1 ∧
    (checkimports w).stdout[1]? = some (pyReprStrList (pyDir obs)) := by
  rw [checkimports_ok w obs h]
  exact ⟨rfl, rfl⟩

theorem c5_witness :
    (checkimports wOk).stdout[0]? = some header1 ∧
    (checkimports wOk).stdout[1]? = some (pyReprStrList (pyDir obsMod)) :=
  c5_first_line_is_header wOk obsMod rfl

/-- C6: the submodule-walk banner is printed exactly once per run, strictly
after all attribute-section output (it is the fourth line, after header,
collection, and the blank line) and strictly before every discovered
module name (all later lines are walk lines extending the root name). -/
theorem c6_banner_once_in_order (w : World) (obs : PyModule)
    (h : w.obsLoad = .ok obs) :
    (checkimports w).stdout.count banner = 1 ∧
    (checkimports w).stdout.take 4 =
      [header1, pyReprStrList (pyDir obs), "", banner] ∧
    ∀ l ∈ (checkimports w).stdout.drop 4, ∃ s, l = rootName ++ "." ++ s := by
  rw [checkimports_ok w obs h]
  refine ⟨?_, rfl, ?_⟩
  · have hL : (walkList (rootName ++ ".") w.rootTree).1.count banner = 0 := by
      rw [List.count_eq_zero]
      intro hmem
      rcases walkList_lines_shape (rootName ++ ".") w.rootTree banner hmem with ⟨s, hs⟩
      exact root_line_ne_banner s hs.symm
    rw [List.count_cons_of_ne (by decide),
      List.count_cons_of_ne (Ne.symm (pyReprStrList_ne_banner (pyDir obs))),
      List.count_cons_of_ne (by decide), List.count_cons_self, hL]
  · intro l hl
    simp only [List.drop_succ_cons, List.drop_zero] at hl
    exact walkList_lines_shape (rootName ++ ".") w.rootTree l hl

theorem c6_witness :
    (checkimports wOk).stdout.count banner = 1 ∧
    (checkimports wOk).stdout.take 4 =
      [header1, pyReprStrList (pyDir obsMod), "", banner] ∧
    ∃ s, "agent_framework.workflows" = rootName ++ "." ++ s :=
  ⟨(c6_banner_once_in_order wOk obsMod rfl).1,
   (c6_banner_once_in_order wOk obsMod rfl).2.1,
   (c6_banner_once_in_order wOk obsMod rfl).2.2 "agent_framework.workflows" (by decide)⟩

/-- C7: for a fixed, unchanged installed state of the target package, two
runs of the script produce identical results — in particular identical
stdout text. -/
theorem c7_two_runs_identical (w : World) (r1 r2 : RunResult)
    (h1 : r1 = checkimports w) (h2 : r2 = checkimports w) :
    r1 = r2 ∧ r1.stdout = r2.stdout := by
  subst h1
  subst h2
  exact ⟨rfl, rfl⟩

theorem c7_witness :
    checkimports wOk = checkimports wOk ∧
    (checkimports wOk).stdout = (checkimports wOk).stdout :=
  c7_two_runs_identical wOk (checkimports wOk) (checkimports wOk) rfl rfl

/-- C8: the script writes to no sink other than stdout/stderr (its side
effect trace is empty — no files, no network), and its behaviour depends
only on the installed-package state: argv, environment variables, and
stdin never change the result. -/
theorem c8_no_other_sinks_or_inputs (p q : ProcessInput)
    (h : p.world = q.world) :
    (runScript p).2 = [] ∧ runScript p = runScript q := by
  refine ⟨rfl, ?_⟩
  rw [runScript, runScript, h]

theorem c8_witness : (runScript pIn1).2 = [] ∧ runScript pIn1 = runScript pIn2 :=
  c8_no_other_sinks_or_inputs pIn1 pIn2 rfl

/-- C9: an `ImportError` raised while importing an individual subpackage
during the walk is silently swallowed — the package's own name is still
yielded, its children are skipped, the walk continues, and the script
exits zero iff no non-`ImportError` exception occurs anywhere in the
traversal; a non-`ImportError` exception makes the exit status non-zero. -/
theorem c9_import_error_tolerance (w : World) (obs : PyModule)
    (h : w.obsLoad = .ok obs) :
    ((checkimports w).exitZero = true ↔ listBenign w.rootTree = true) ∧
    ∀ pre n children,
      walkOne pre (.pkg n .importError children) = ([pre ++ n], none) := by
  rw [checkimports_ok w obs h]
  refine ⟨?_, fun pre n children => by simp [walkOne]⟩
  rw [Option.isNone_iff_eq_none]
  exact walkList_err_iff (rootName ++ ".") w.rootTree

theorem c9_witness :
    ((checkimports wOk).exitZero = true ↔ listBenign wOk.rootTree = true) ∧
    walkOne "agent_framework." (.pkg "azure" .importError [.mod "hidden"]) =
      (["agent_framework.azure"], none) :=
  ⟨(c9_import_error_tolerance wOk obsMod rfl).1,
   (c9_import_error_tolerance wOk obsMod rfl).2 "agent_framework." "azure" [.mod "hidden"]⟩

/-- C10: the attribute-collection line is printed in ascending
lexicographic order: `dir` sorts the submodule's attribute names, so the
printed list is pairwise ordered under the string order. -/
theorem c10_dir_output_sorted (w : World) (obs : PyModule)
    (h : w.obsLoad = .ok obs) :
    (checkimports w).stdout[1]? = some (pyReprStrList (pyDir obs)) ∧
    List.Pairwise (fun a b : String => a ≤ b) (pyDir obs) := by
  rw [checkimports_ok w obs h]
  refine ⟨rfl, ?_⟩
  exact (pairwise_sortLe obs.attrs.dedup).imp (fun hab => (strLeB_iff_le _ _).1 hab)

theorem c10_witness :
    (checkimports wOk).stdout[1]? = some (pyReprStrList (pyDir obsMod)) ∧
    List.Pairwise (fun a b : String => a ≤ b) (pyDir obsMod) :=
  c10_dir_output_sorted wOk obsMod rfl
